import Mathlib

/-!
# Verification of the SNES multiplayer room coordinator (`server.js`)

Shallow embedding of the room/session coordinator: the in-memory room
registry, slot allocator, join protocol, joypad-input router, WebRTC
signaling relay, departure handler and stale-room reaper.

JavaScript `Map`s are modelled as insertion-ordered association lists
(`Map.set` replaces in place on an existing key, appends on a fresh key;
`Map.delete` removes the entry; iteration is in insertion order).
JavaScript string/number truthiness is modelled explicitly where the
source relies on it (`x || y`, `if (!x)`).  Opaque payloads (WebRTC
offers/answers/candidates, frame data) are modelled as `String`.
The `>>> 0` coercion on joypad bitmasks is `Int.emod _ (2^32)`.
-/

-- ─── Association-list model of JavaScript Map ────────────────────────────────

/-- `Map.get`: value of the first (only, keys being unique) entry for `k`. -/
def aget {A : Type} : List (String × A) → String → Option A
  | [], _ => none
  | e :: rest, k => if e.1 = k then some e.2 else aget rest k

/-- `Map.set`: replace the entry for `k` in place, or append a fresh one. -/
def aset {A : Type} : List (String × A) → String → A → List (String × A)
  | [], k, v => [(k, v)]
  | e :: rest, k, v => if e.1 = k then (k, v) :: rest else e :: aset rest k v

/-- `Map.delete`: remove the entry for `k` (keys are unique in a `Map`). -/
def aerase {A : Type} : List (String × A) → String → List (String × A)
  | [], _ => []
  | e :: rest, k => if e.1 = k then rest else e :: aerase rest k

-- ─── JavaScript truthiness helpers ───────────────────────────────────────────

/-- Truthiness of a possibly-undefined string: `undefined`, `null` and `""`
are falsy, every other string is truthy. -/
def jsTruthyStr : Option String → Bool
  | none => false
  | some s => s ≠ ""

/-- `a || b` on possibly-undefined strings. -/
def jsOrStrOpt (a b : Option String) : Option String :=
  if jsTruthyStr a then a else b

/-- `String(x || '')` on a possibly-undefined string. -/
def jsOrEmpty : Option String → String
  | none => ""
  | some s => s

/-- `x || null` on a possibly-undefined string (used for `room.romName || null`). -/
def jsOrNullStr (a : Option String) : Option String :=
  if jsTruthyStr a then a else none

/-- JavaScript `x >>> 0` on an integer-valued number: conversion to an
unsigned 32-bit integer, i.e. the value modulo `2^32` in `[0, 2^32)`. -/
def toUint32 (x : Int) : Int := x.emod (2 ^ 32)

-- ─── Data model (server.js lines 111-127) ────────────────────────────────────

/-- `MAX_PLAYERS = 4` — SNES supports up to 4 via MultiTap. -/
def MAX_PLAYERS : Nat := 4

/-- `playerInfo: { slot: 1-4, name: string, role: string }`. -/
structure PlayerInfo where
  slot : Nat
  name : String
  role : String
  deriving DecidableEq

/-- A room:
`{ players: Map<socketId, playerInfo>, host, emulatorSocket, romName }`. -/
structure Room where
  players : List (String × PlayerInfo)
  host : Option String
  emulatorSocket : Option String
  romName : Option String
  deriving DecidableEq

/-- Per-connection server-tracked state (`socket.data`). -/
structure SocketData where
  roomId : String
  slot : Nat
  isEmulator : Bool
  deriving DecidableEq

/-- The whole mutable server state: the room registry `rooms` plus each
live connection's `socket.data`. -/
structure ServerState where
  rooms : List (String × Room)
  socketData : List (String × SocketData)
  deriving DecidableEq

def initState : ServerState := { rooms := [], socketData := [] }

def emptyRoom : Room :=
  { players := [], host := none, emulatorSocket := none, romName := none }

-- ─── Snapshots (roomInfo / getAllRooms) ──────────────────────────────────────

/-- One entry of `roomInfo(...).players`: `{ id, slot, name, role }`. -/
structure PlayerSnap where
  id : String
  slot : Nat
  name : String
  role : String
  deriving DecidableEq

/-- Result of `roomInfo(roomId)`: `{ id, host, players }`. -/
structure RoomInfoSnap where
  id : String
  host : Option String
  players : List PlayerSnap
  deriving DecidableEq

/-- One entry of `getAllRooms()`. -/
structure RoomSummary where
  id : String
  playerCount : Nat
  maxPlayers : Nat
  players : List (Nat × String)
  romName : Option String
  deriving DecidableEq

/-- `roomInfo(roomId)` (server.js line 137). -/
def roomInfo (rooms : List (String × Room)) (roomId : String) : Option RoomInfoSnap :=
  match aget rooms roomId with
  | none => none
  | some room =>
      some { id := roomId, host := room.host,
             players := room.players.map fun e =>
               { id := e.1, slot := e.2.slot, name := e.2.name, role := e.2.role } }

/-- `getAllRooms()` (server.js line 94). -/
def getAllRooms (rooms : List (String × Room)) : List RoomSummary :=
  rooms.map fun e =>
    { id := e.1, playerCount := e.2.players.length, maxPlayers := MAX_PLAYERS,
      players := e.2.players.map fun q => (q.2.slot, q.2.name),
      romName := jsOrNullStr e.2.romName }

-- ─── Outbound messages ───────────────────────────────────────────────────────

/-- Events the server sends to clients, with their payloads. -/
inductive Event where
  | roomError (message : String)
  | roomJoined (slot : Nat) (isHost : Bool) (roomId : String) (info : Option RoomInfoSnap)
  | roomUpdated (info : Option RoomInfoSnap)
  | roomsList (list : List RoomSummary)
  | viewerJoined (socketId : String) (slot : Nat) (name : String)
  | emulatorJoined
  | emulatorLeft
  | newHost (host : Option String)
  | joypadState (slot : Int) (buttons : Int) (axesX axesY : Int)
  | webrtcOffer (fromId : String) (offer : String)
  | webrtcAnswer (fromId : String) (answer : String)
  | webrtcIce (fromId : String) (candidate : String)
  | emuFrame (data : String)
  | emuSavestate (data : String)
  | gameStarted
  | chatMsg (fromName : String) (slot : Nat) (text : String)
  | perfPong (now : Int)
  deriving DecidableEq

/-- An emission: an event together with its delivery scope.
`toConn` is `socket.emit` / `io.to(<socketId>)` (unicast),
`toRoomExceptSender` is `socket.to(roomId).emit`,
`toRoomAll` is `io.to(roomId).emit`, `broadcast` is `io.emit`. -/
inductive Emit where
  | toConn (target : String) (ev : Event)
  | toRoomExceptSender (roomId sender : String) (ev : Event)
  | toRoomAll (roomId : String) (ev : Event)
  | broadcast (ev : Event)
  deriving DecidableEq

/-- Transport-level delivery of the unicast emissions: `io.to(socketId)`
delivers to that connection when it is live and to nobody otherwise. -/
def connDeliveries (emits : List Emit) (live : List String) : List (String × Event) :=
  match emits with
  | [] => []
  | Emit.toConn t ev :: rest =>
      if live.contains t then (t, ev) :: connDeliveries rest live
      else connDeliveries rest live
  | _ :: rest => connDeliveries rest live

-- ─── Room helpers (server.js lines 118-135) ──────────────────────────────────

/-- `getOrCreateRoom(roomId)`: registry after the call, and the room. -/
def getOrCreateRoom (rooms : List (String × Room)) (roomId : String) :
    List (String × Room) × Room :=
  match aget rooms roomId with
  | some r => (rooms, r)
  | none => (rooms ++ [(roomId, emptyRoom)], emptyRoom)

/-- The set of slots in use by a room's live participants. -/
def usedSlots (room : Room) : List Nat :=
  room.players.map fun e => e.2.slot

/-- `assignSlot(room)`: first slot in `1..MAX_PLAYERS` not in use, else
`null` ("full") (server.js line 129). -/
def assignSlot (room : Room) : Option Nat :=
  (List.range' 1 MAX_PLAYERS).find? fun s => !((usedSlots room).contains s)

-- ─── room:join handler (server.js lines 152-204) ─────────────────────────────

/-- Payload of `room:join`: `{ roomId, playerName, role }`, each possibly
absent. -/
structure JoinPayload where
  roomId : Option String
  playerName : Option String
  role : Option String
  deriving DecidableEq

/-- `roomId = String(roomId || 'default').slice(0, 32)`. -/
def normalizeRoomId (r : Option String) : String :=
  (match r with
   | some s => if s = "" then "default" else s
   | none => "default").take 32

/-- `playerName || \x60Player ${slot}\x60`. -/
def joinPlayerName (p : JoinPayload) (slot : Nat) : String :=
  match p.playerName with
  | some n => if n = "" then "Player " ++ toString slot else n
  | none => "Player " ++ toString slot

/-- `role || 'controller'`. -/
def joinPlayerRole (p : JoinPayload) : String :=
  match p.role with
  | some r => if r = "" then "controller" else r
  | none => "controller"

def joinPlayer (p : JoinPayload) (slot : Nat) : PlayerInfo :=
  ⟨slot, joinPlayerName p slot, joinPlayerRole p⟩

/-- The room after the joiner is inserted: `players.set`, then
`if (isHost) room.host = socket.id`, then
`if (isEmulator) room.emulatorSocket = socket.id`.  `isHost` is computed
from the size before insertion. -/
def joinUpdatedRoom (room : Room) (sid : String) (p : JoinPayload) (slot : Nat) : Room :=
  let room1 := { room with players := aset room.players sid (joinPlayer p slot) }
  let room2 := if room.players.isEmpty then { room1 with host := some sid } else room1
  if p.role = some "emulator" then { room2 with emulatorSocket := some sid } else room2

def roomJoinHandler (st : ServerState) (sid : String) (p : JoinPayload) :
    ServerState × List Emit :=
  let roomId := normalizeRoomId p.roomId
  let gc := getOrCreateRoom st.rooms roomId
  match assignSlot gc.2 with
  | none =>
      ({ st with rooms := gc.1 },
       [Emit.toConn sid (Event.roomError "Room is full (max 4 players).")])
  | some slot =>
      let room := gc.2
      let isHost := room.players.isEmpty
      let isEmulator := p.role = some "emulator"
      let room3 := joinUpdatedRoom room sid p slot
      let rooms2 := aset gc.1 roomId room3
      let st2 : ServerState :=
        { rooms := rooms2,
          socketData := aset st.socketData sid ⟨roomId, slot, isEmulator⟩ }
      (st2,
       [Emit.toConn sid (Event.roomJoined slot isHost roomId (roomInfo rooms2 roomId)),
        Emit.toRoomExceptSender roomId sid (Event.roomUpdated (roomInfo rooms2 roomId)),
        Emit.broadcast (Event.roomsList (getAllRooms rooms2))]
       ++ (if !isEmulator then
             match room3.emulatorSocket with
             | some es =>
                 if es = "" then []
                 else [Emit.toConn es (Event.viewerJoined sid slot (joinPlayerName p slot))]
             | none => []
           else [])
       ++ (if isEmulator then
             (room3.players.filter fun e => e.1 ≠ sid ∧ e.2.role ≠ "emulator").map
               (fun e => Emit.toConn sid (Event.viewerJoined e.1 e.2.slot e.2.name))
             ++ [Emit.toRoomExceptSender roomId sid Event.emulatorJoined]
           else []))

-- ─── joypad:input handler (server.js lines 214-233) ──────────────────────────

/-- Payload of `joypad:input`: `{ buttons, axes, roomId?, slot? }`.
`axes = none` models an absent/falsy `axes` field; `slot = none` models an
absent or non-numeric `slot` (`Number(...)` = `NaN`, falsy). -/
structure JoypadPayload where
  roomId : Option String
  slot : Option Int
  buttons : Int
  axes : Option (Int × Int)
  deriving DecidableEq

/-- `socket.data.roomId || String(payload.roomId || '')`. -/
def resolveRoomId (st : ServerState) (sid : String) (p : JoypadPayload) : String :=
  match aget st.socketData sid with
  | some sd => if sd.roomId ≠ "" then sd.roomId else jsOrEmpty p.roomId
  | none => jsOrEmpty p.roomId

/-- `Number(payload.slot) || null`. -/
def fallbackSlot (p : JoypadPayload) : Option Int :=
  match p.slot with
  | some v => if v = 0 then none else some v
  | none => none

/-- `socket.data.slot || Number(payload.slot) || null`. -/
def resolveSlot (st : ServerState) (sid : String) (p : JoypadPayload) : Option Int :=
  match aget st.socketData sid with
  | some sd => if sd.slot ≠ 0 then some (sd.slot : Int) else fallbackSlot p
  | none => fallbackSlot p

def joypadInputHandler (st : ServerState) (sid : String) (p : JoypadPayload) :
    List Emit :=
  let roomId := resolveRoomId st sid p
  match resolveSlot st sid p with
  | none => []
  | some s =>
      if roomId = "" then []
      else
        match aget st.rooms roomId with
        | none => []
        | some room =>
            match jsOrStrOpt room.emulatorSocket room.host with
            | none => []
            | some t =>
                if t = "" then []
                else
                  [Emit.toConn t (Event.joypadState s (toUint32 p.buttons)
                    (p.axes.getD (0, 0)).1 (p.axes.getD (0, 0)).2)]

-- ─── room:setrom handler (server.js lines 250-256) ───────────────────────────

def setromHandler (st : ServerState) (sid : String) (romName : Option String) :
    ServerState × List Emit :=
  match aget st.socketData sid with
  | none => (st, [])
  | some sd =>
      match aget st.rooms sd.roomId with
      | none => (st, [])
      | some room =>
          let rooms2 := aset st.rooms sd.roomId
            { room with romName := some ((jsOrEmpty romName).take 80) }
          ({ st with rooms := rooms2 },
           [Emit.broadcast (Event.roomsList (getAllRooms rooms2))])

-- ─── Stateless relays and broadcasts ─────────────────────────────────────────

def emuFrameHandler (st : ServerState) (sid : String) (data : String) : List Emit :=
  match aget st.socketData sid with
  | none => []
  | some sd =>
      if sd.roomId = "" then []
      else [Emit.toRoomExceptSender sd.roomId sid (Event.emuFrame data)]

def emuSavestateHandler (st : ServerState) (sid : String) (data : String) : List Emit :=
  match aget st.socketData sid with
  | none => []
  | some sd =>
      if sd.roomId = "" then []
      else [Emit.toRoomExceptSender sd.roomId sid (Event.emuSavestate data)]

def gameStartedHandler (st : ServerState) (sid : String) : List Emit :=
  match aget st.socketData sid with
  | none => []
  | some sd =>
      if sd.roomId = "" then []
      else [Emit.toRoomExceptSender sd.roomId sid Event.gameStarted]

def requestOfferHandler (st : ServerState) (sid : String) : List Emit :=
  match aget st.socketData sid with
  | none => []
  | some sd =>
      match aget st.rooms sd.roomId with
      | none => []
      | some room =>
          match room.emulatorSocket with
          | none => []
          | some es =>
              if es = "" then []
              else
                [Emit.toConn es (Event.viewerJoined sid sd.slot
                  (match aget room.players sid with
                   | some pl => if pl.name = "" then "Viewer" else pl.name
                   | none => "Viewer"))]

def chatHandler (st : ServerState) (sid : String) (text : String) : List Emit :=
  match aget st.socketData sid with
  | none => []
  | some sd =>
      match aget st.rooms sd.roomId with
      | none => []
      | some room =>
          [Emit.toRoomAll sd.roomId (Event.chatMsg
            (match aget room.players sid with
             | some pl => pl.name
             | none => "Unknown")
            sd.slot (text.take 200))]

-- ─── disconnect handler (server.js lines 313-347) ────────────────────────────

/-- The room after `room.players.delete(socket.id)` and the clearing of
`emulatorSocket` when that socket is the departing one. -/
def departedRoom (room : Room) (sid : String) : Room :=
  let room1 := { room with players := aerase room.players sid }
  if room1.emulatorSocket = some sid then { room1 with emulatorSocket := none } else room1

/-- Host replacement on departure: the first remaining participant whose
role is not `'viewer'`, else the first remaining participant
(`room.players.keys().next().value`). -/
def replacementHost (room2 : Room) : Option String :=
  match room2.players.find? (fun e => e.2.role ≠ "viewer") with
  | some e => some e.1
  | none => room2.players.head?.map Prod.fst

def disconnectHandler (st : ServerState) (sid : String) : ServerState × List Emit :=
  match aget st.socketData sid with
  | none => (st, [])
  | some sd =>
      if sd.roomId = "" then (st, [])
      else
        match aget st.rooms sd.roomId with
        | none => (st, [])
        | some room =>
            let room2 := departedRoom room sid
            let emuLeft := room.emulatorSocket = some sid
            let ems1 := if emuLeft then [Emit.toRoomAll sd.roomId Event.emulatorLeft] else []
            if room2.players.isEmpty then
              ({ st with rooms := aerase st.rooms sd.roomId },
               ems1 ++ [Emit.broadcast (Event.roomsList (getAllRooms (aerase st.rooms sd.roomId)))])
            else
              let hostLeft := room2.host = some sid
              let newHost := if hostLeft then replacementHost room2 else room2.host
              let room3 := { room2 with host := newHost }
              let rooms2 := aset st.rooms sd.roomId room3
              let ems2 := if hostLeft then [Emit.toRoomAll sd.roomId (Event.newHost newHost)] else []
              ({ st with rooms := rooms2 },
               ems1 ++ ems2
               ++ [Emit.toRoomAll sd.roomId (Event.roomUpdated (roomInfo rooms2 sd.roomId)),
                   Emit.broadcast (Event.roomsList (getAllRooms rooms2))])

-- ─── Stale-room reaper (server.js lines 353-363) ─────────────────────────────

def reapHandler (st : ServerState) : ServerState × List Emit :=
  let stale := st.rooms.filter fun e => e.2.players.isEmpty
  let kept := st.rooms.filter fun e => !e.2.players.isEmpty
  ({ st with rooms := kept },
   if stale.isEmpty then []
   else [Emit.broadcast (Event.roomsList (getAllRooms kept))])

-- ─── Server events and the step function ─────────────────────────────────────

/-- One inbound event: a client message with its sender, a disconnect, or
a reaper tick. -/
inductive SEvent where
  | join (sid : String) (p : JoinPayload)
  | joypad (sid : String) (p : JoypadPayload)
  | setrom (sid : String) (romName : Option String)
  | webrtcOfferMsg (sid toId payload : String)
  | webrtcAnswerMsg (sid toId payload : String)
  | webrtcIceMsg (sid toId payload : String)
  | requestOffer (sid : String)
  | emuFrame (sid : String) (data : String)
  | emuSavestate (sid : String) (data : String)
  | gameStarted (sid : String)
  | chat (sid : String) (text : String)
  | ping (sid : String) (now : Int)
  | disconnect (sid : String)
  | reap
  deriving DecidableEq

/-- The server's dispatch: each inbound event runs to completion, producing
the next state and a list of emissions. -/
def step (st : ServerState) : SEvent → ServerState × List Emit
  | SEvent.join sid p => roomJoinHandler st sid p
  | SEvent.joypad sid p => (st, joypadInputHandler st sid p)
  | SEvent.setrom sid r => setromHandler st sid r
  | SEvent.webrtcOfferMsg sid toId payload =>
      (st, [Emit.toConn toId (Event.webrtcOffer sid payload)])
  | SEvent.webrtcAnswerMsg sid toId payload =>
      (st, [Emit.toConn toId (Event.webrtcAnswer sid payload)])
  | SEvent.webrtcIceMsg sid toId payload =>
      (st, [Emit.toConn toId (Event.webrtcIce sid payload)])
  | SEvent.requestOffer sid => (st, requestOfferHandler st sid)
  | SEvent.emuFrame sid d => (st, emuFrameHandler st sid d)
  | SEvent.emuSavestate sid d => (st, emuSavestateHandler st sid d)
  | SEvent.gameStarted sid => (st, gameStartedHandler st sid)
  | SEvent.chat sid t => (st, chatHandler st sid t)
  | SEvent.ping sid now => (st, [Emit.toConn sid (Event.perfPong now)])
  | SEvent.disconnect sid => disconnectHandler st sid
  | SEvent.reap => reapHandler st

/-- The state reached after processing a list of events from the empty
initial state. -/
def run (evs : List SEvent) : ServerState :=
  evs.foldl (fun s e => (step s e).1) initState

-- ─── Decidability of the invariants ──────────────────────────────────────────

/-- Well-formedness of a list of participants: slots pairwise distinct and
all in `{1,2,3,4}`. -/
def slotsOkL (l : List (String × PlayerInfo)) : Prop :=
  (l.map fun e => e.2.slot).Nodup ∧ ∀ e ∈ l, 1 ≤ e.2.slot ∧ e.2.slot ≤ 4

/-- Every room in the registry has pairwise-distinct slots in `{1,..,4}`. -/
def SlotInvariant (st : ServerState) : Prop :=
  ∀ r ∈ st.rooms, slotsOkL r.2.players

/-- Every room in the registry holds at least one participant. -/
def RoomsNonempty (st : ServerState) : Prop :=
  ∀ r ∈ st.rooms, r.2.players ≠ []

instance (l : List (String × PlayerInfo)) : Decidable (slotsOkL l) := by
  unfold slotsOkL
  infer_instance

instance (st : ServerState) : Decidable (SlotInvariant st) := by
  unfold SlotInvariant
  infer_instance

instance (st : ServerState) : Decidable (RoomsNonempty st) := by
  unfold RoomsNonempty
  infer_instance

-- ─── Concrete states and traces used as witnesses and counterexamples ────────

/-- A room with all four slots taken. -/
def fullRoom4 : Room :=
  { players := [("a", ⟨1, "P1", "controller"⟩), ("b", ⟨2, "P2", "controller"⟩),
                ("c", ⟨3, "P3", "controller"⟩), ("d", ⟨4, "P4", "viewer"⟩)],
    host := some "a", emulatorSocket := none, romName := none }

/-- A registry holding exactly the full room `rm`. -/
def fullState : ServerState := { rooms := [("rm", fullRoom4)], socketData := [] }

/-- An emulator (session owner) followed by a controller joining room `r`. -/
def ownerThenControllerTrace : List SEvent :=
  [SEvent.join "e1" ⟨some "r", some "Emu", some "emulator"⟩,
   SEvent.join "c2" ⟨some "r", some "Con", some "controller"⟩]

/-- A controller host, then a viewer, then a second controller join room `r`. -/
def hostViewerControllerTrace : List SEvent :=
  [SEvent.join "c1" ⟨some "r", some "A", some "controller"⟩,
   SEvent.join "v" ⟨some "r", some "B", some "viewer"⟩,
   SEvent.join "c2" ⟨some "r", some "C", some "controller"⟩]

/-- The room reached by `hostViewerControllerTrace`. -/
def hostViewerControllerRoom : Room :=
  { players := [("c1", ⟨1, "A", "controller"⟩), ("v", ⟨2, "B", "viewer"⟩),
                ("c2", ⟨3, "C", "controller"⟩)],
    host := some "c1", emulatorSocket := none, romName := none }

/-- The room reached by `ownerThenControllerTrace`. -/
def ownerControllerRoom : Room :=
  { players := [("e1", ⟨1, "Emu", "emulator"⟩), ("c2", ⟨2, "Con", "controller"⟩)],
    host := some "e1", emulatorSocket := some "e1", romName := none }

/-- Three controllers join `r` (slots 1,2,3), then the participants at
slots 2 and 3 depart in that order: the last departure frees slot 3 while
slot 2 is also free. -/
def holeTrace : List SEvent :=
  [SEvent.join "a" ⟨some "r", none, none⟩,
   SEvent.join "b" ⟨some "r", none, none⟩,
   SEvent.join "c" ⟨some "r", none, none⟩,
   SEvent.disconnect "b",
   SEvent.disconnect "c"]

-- ─── Lemmas about the Map model ──────────────────────────────────────────────

theorem aget_some_mem {A : Type} (l : List (String × A)) (k : String) (v : A)
    (h : aget l k = some v) : (k, v) ∈ l := by
  induction l with
  | nil => simp [aget] at h
  | cons e rest ih =>
      unfold aget at h
      by_cases he : e.1 = k
      · rw [if_pos he] at h
        have he2 : e = (k, v) := by cases e; simp_all
        rw [← he2]
        exact List.mem_cons_self _ _
      · rw [if_neg he] at h
        exact List.mem_cons_of_mem _ (ih h)

theorem mem_aset {A : Type} (l : List (String × A)) (k : String) (v : A)
    (x : String × A) (h : x ∈ aset l k v) : x = (k, v) ∨ x ∈ l := by
  induction l with
  | nil => simp [aset] at h; simp [h]
  | cons e rest ih =>
      unfold aset at h
      by_cases he : e.1 = k
      · rw [if_pos he] at h
        rcases List.mem_cons.mp h with h1 | h1
        · exact Or.inl h1
        · exact Or.inr (List.mem_cons_of_mem _ h1)
      · rw [if_neg he] at h
        rcases List.mem_cons.mp h with h1 | h1
        · exact Or.inr (h1 ▸ List.mem_cons_self _ _)
        · rcases ih h1 with h2 | h2
          · exact Or.inl h2
          · exact Or.inr (List.mem_cons_of_mem _ h2)

theorem aset_ne_nil {A : Type} (l : List (String × A)) (k : String) (v : A) :
    aset l k v ≠ [] := by
  cases l with
  | nil => simp [aset]
  | cons e rest =>
      unfold aset
      by_cases he : e.1 = k
      · rw [if_pos he]; simp
      · rw [if_neg he]; simp

theorem aget_aset_self {A : Type} (l : List (String × A)) (k : String) (v : A) :
    aget (aset l k v) k = some v := by
  induction l with
  | nil => simp [aset, aget]
  | cons e rest ih =>
      unfold aset
      by_cases he : e.1 = k
      · rw [if_pos he]; simp [aget]
      · rw [if_neg he]; unfold aget; rw [if_neg he]; exact ih

theorem aerase_sublist {A : Type} (l : List (String × A)) (k : String) :
    List.Sublist (aerase l k) l := by
  induction l with
  | nil => simp [aerase]
  | cons e rest ih =>
      unfold aerase
      by_cases he : e.1 = k
      · rw [if_pos he]; exact List.sublist_cons_self e rest
      · rw [if_neg he]; exact List.Sublist.cons₂ e ih

theorem aset_append_fresh {A : Type} (l : List (String × A)) (k : String) (v₀ v : A)
    (h : aget l k = none) : aset (l ++ [(k, v₀)]) k v = l ++ [(k, v)] := by
  induction l with
  | nil => simp [aset]
  | cons e rest ih =>
      unfold aget at h
      by_cases he : e.1 = k
      · rw [if_pos he] at h; cases h
      · rw [if_neg he] at h
        show aset (e :: (rest ++ [(k, v₀)])) k v = e :: (rest ++ [(k, v)])
        unfold aset
        rw [if_neg he, ih h]

theorem mem_map_aset {A B : Type} (f : String × A → B) (l : List (String × A))
    (k : String) (v : A) (b : B) (h : b ∈ (aset l k v).map f) :
    b = f (k, v) ∨ b ∈ l.map f := by
  rcases List.mem_map.mp h with ⟨x, hx, rfl⟩
  rcases mem_aset l k v x hx with rfl | h1
  · exact Or.inl rfl
  · exact Or.inr (List.mem_map_of_mem f h1)

theorem map_aset_nodup {A B : Type} (f : String × A → B) (l : List (String × A))
    (k : String) (v : A) (hn : (l.map f).Nodup) (hf : f (k, v) ∉ l.map f) :
    ((aset l k v).map f).Nodup := by
  induction l with
  | nil => simp [aset]
  | cons e rest ih =>
      unfold aset
      by_cases he : e.1 = k
      · rw [if_pos he]
        simp only [List.map_cons, List.nodup_cons, List.mem_cons, not_or] at *
        exact ⟨hf.2, hn.2⟩
      · rw [if_neg he]
        simp only [List.map_cons, List.nodup_cons, List.mem_cons, not_or] at *
        refine ⟨fun hc => ?_, ih hn.2 hf.2⟩
        rcases mem_map_aset f rest k v (f e) hc with h1 | h1
        · exact hf.1 h1.symm
        · exact hn.1 h1

-- ─── The slot invariant (claim C1) ───────────────────────────────────────────

theorem slotsOkL_empty : slotsOkL ([] : List (String × PlayerInfo)) := by
  constructor <;> simp

theorem slotsOkL_sublist {l l' : List (String × PlayerInfo)} (hs : List.Sublist l' l)
    (h : slotsOkL l) : slotsOkL l' :=
  ⟨h.1.sublist (hs.map _), fun e he => h.2 e (hs.subset he)⟩

theorem joinUpdatedRoom_players (room : Room) (sid : String) (p : JoinPayload) (slot : Nat) :
    (joinUpdatedRoom room sid p slot).players = aset room.players sid (joinPlayer p slot) := by
  unfold joinUpdatedRoom
  split <;> split <;> rfl

theorem departedRoom_players (room : Room) (sid : String) :
    (departedRoom room sid).players = aerase room.players sid := by
  simp only [departedRoom]
  split <;> rfl

theorem departedRoom_host (room : Room) (sid : String) :
    (departedRoom room sid).host = room.host := by
  simp only [departedRoom]
  split <;> rfl

theorem joinUpdatedRoom_host (room : Room) (sid : String) (p : JoinPayload) (slot : Nat) :
    (joinUpdatedRoom room sid p slot).host =
      if room.players.isEmpty then some sid else room.host := by
  simp only [joinUpdatedRoom]
  split <;> split <;> rfl

theorem assignSlot_of_empty (room : Room) (h : room.players = []) :
    assignSlot room = some 1 := by
  unfold assignSlot usedSlots
  rw [h]
  rfl

-- ─── assignSlot characterization ─────────────────────────────────────────────

theorem find?_range'_min (b : Nat) : ∀ (a : Nat) (p : Nat → Bool) (s : Nat),
    (List.range' a b).find? p = some s → ∀ t, a ≤ t → t < s → p t = false := by
  induction b with
  | zero => intro a p s h; simp [List.range'] at h
  | succ n ih =>
      intro a p s h t hat hts
      rw [List.range'_succ] at h
      by_cases hpa : p a = true
      · rw [List.find?_cons_of_pos _ hpa] at h
        injection h with h
        omega
      · rw [List.find?_cons_of_neg _ hpa] at h
        rcases Nat.eq_or_lt_of_le hat with rfl | hlt
        · exact Bool.eq_false_iff.mpr hpa
        · exact ih (a + 1) p s h t hlt hts

theorem assignSlot_mem_free (room : Room) (s : Nat) (h : assignSlot room = some s) :
    1 ≤ s ∧ s ≤ 4 ∧ s ∉ usedSlots room := by
  unfold assignSlot at h
  have hmem := List.mem_of_find?_eq_some h
  have hp := List.find?_some h
  have hp' : s ∉ usedSlots room := by simpa using hp
  have hrange : List.range' 1 MAX_PLAYERS = [1, 2, 3, 4] := rfl
  rw [hrange] at hmem
  simp only [List.mem_cons, List.not_mem_nil, or_false] at hmem
  refine ⟨by omega, by omega, hp'⟩

theorem assignSlot_min (room : Room) (s : Nat) (h : assignSlot room = some s) :
    ∀ t, 1 ≤ t → t < s → t ∈ usedSlots room := by
  intro t h1 hts
  have := find?_range'_min MAX_PLAYERS 1 _ s h t h1 hts
  simpa using this

theorem assignSlot_none_all_used (room : Room) (h : assignSlot room = none) :
    ∀ t, 1 ≤ t → t ≤ 4 → t ∈ usedSlots room := by
  intro t h1 h4
  unfold assignSlot at h
  rw [List.find?_eq_none] at h
  have ht : t ∈ List.range' 1 MAX_PLAYERS := by
    have hrange : List.range' 1 MAX_PLAYERS = [1, 2, 3, 4] := rfl
    rw [hrange]
    simp only [List.mem_cons, List.not_mem_nil, or_false]
    omega
  have := h t ht
  simpa using this

theorem assignSlot_empty : assignSlot emptyRoom = some 1 := by decide

/-- Pigeonhole: a room with 4 pairwise-distinct slots all in `{1,..,4}`
has every slot in use, so allocation fails. -/
theorem full_assignSlot_none (room : Room) (hlen : room.players.length = 4)
    (hok : slotsOkL room.players) : assignSlot room = none := by
  have hn : (usedSlots room).Nodup := hok.1
  have hlen' : (usedSlots room).length = 4 := by
    simp [usedSlots, hlen]
  have hall : ∀ t, 1 ≤ t → t ≤ 4 → t ∈ usedSlots room := by
    intro t h1 h4
    by_contra hmem
    have hsub : usedSlots room ⊆ List.filter (fun x => x ≠ t) [1, 2, 3, 4] := by
      intro s hs
      rcases List.mem_map.mp hs with ⟨e, he, rfl⟩
      have hr := hok.2 e he
      have hne : e.2.slot ≠ t := fun hc => hmem (hc ▸ hs)
      simp only [List.mem_filter, List.mem_cons, List.not_mem_nil, or_false, ne_eq,
        decide_eq_true_eq]
      exact ⟨by omega, by simpa using hne⟩
    have hsp := List.subperm_of_subset hn hsub
    have hle := hsp.length_le
    have hflen : (List.filter (fun x => x ≠ t) [1, 2, 3, 4]).length ≤ 3 := by
      interval_cases t <;> simp
    omega
  unfold assignSlot
  rw [List.find?_eq_none]
  intro s hs
  have hrange : List.range' 1 MAX_PLAYERS = [1, 2, 3, 4] := rfl
  rw [hrange] at hs
  simp only [List.mem_cons, List.not_mem_nil, or_false] at hs
  have := hall s (by omega) (by omega)
  simp [this]

-- ─── Invariant preservation ──────────────────────────────────────────────────

theorem slotsOkL_join (room : Room) (sid : String) (p : JoinPayload) (slot : Nat)
    (hok : slotsOkL room.players) (hs : assignSlot room = some slot) :
    slotsOkL (aset room.players sid (joinPlayer p slot)) := by
  obtain ⟨h1, h4, hfree⟩ := assignSlot_mem_free room slot hs
  constructor
  · apply map_aset_nodup _ _ _ _ hok.1
    simpa [usedSlots, joinPlayer] using hfree
  · intro e he
    rcases mem_aset _ _ _ e he with rfl | h2
    · simp only [joinPlayer]
      exact ⟨h1, h4⟩
    · exact hok.2 e h2

theorem mem_getOrCreate (rooms : List (String × Room)) (rid : String) (r : String × Room)
    (h : r ∈ (getOrCreateRoom rooms rid).1) : r ∈ rooms ∨ r = (rid, emptyRoom) := by
  unfold getOrCreateRoom at h
  rcases hg : aget rooms rid with _ | room
  · rw [hg] at h
    simp only [List.mem_append, List.mem_singleton] at h
    exact h
  · rw [hg] at h
    exact Or.inl h

theorem slotsOkL_getOrCreate (st : ServerState) (rid : String) (h : SlotInvariant st) :
    slotsOkL (getOrCreateRoom st.rooms rid).2.players := by
  unfold getOrCreateRoom
  rcases hg : aget st.rooms rid with _ | room
  · exact slotsOkL_empty
  · exact h _ (aget_some_mem _ _ _ hg)

theorem slotInvariant_join (st : ServerState) (sid : String) (p : JoinPayload)
    (h : SlotInvariant st) : SlotInvariant (roomJoinHandler st sid p).1 := by
  simp only [roomJoinHandler]
  split
  · intro r hr
    rcases mem_getOrCreate _ _ r hr with h1 | h1
    · exact h r h1
    · rw [h1]
      exact slotsOkL_empty
  · rename_i slot hga
    intro r hr
    rcases mem_aset _ _ _ r hr with rfl | h1
    · show slotsOkL (joinUpdatedRoom _ sid p slot).players
      rw [joinUpdatedRoom_players]
      exact slotsOkL_join _ sid p slot (slotsOkL_getOrCreate st _ h) hga
    · rcases mem_getOrCreate _ _ r h1 with h2 | h2
      · exact h r h2
      · rw [h2]
        exact slotsOkL_empty

theorem slotInvariant_setrom (st : ServerState) (sid : String) (rn : Option String)
    (h : SlotInvariant st) : SlotInvariant (setromHandler st sid rn).1 := by
  cases hsd : aget st.socketData sid with
  | none => simp only [setromHandler, hsd]; exact h
  | some sd =>
      cases hroom : aget st.rooms sd.roomId with
      | none => simp only [setromHandler, hsd, hroom]; exact h
      | some room =>
          simp only [setromHandler, hsd, hroom]
          intro r hr
          rcases mem_aset _ _ _ r hr with rfl | h1
          · show slotsOkL room.players
            exact h _ (aget_some_mem _ _ _ hroom)
          · exact h r h1

theorem slotInvariant_disconnect (st : ServerState) (sid : String)
    (h : SlotInvariant st) : SlotInvariant (disconnectHandler st sid).1 := by
  cases hsd : aget st.socketData sid with
  | none => simp only [disconnectHandler, hsd]; exact h
  | some sd =>
      by_cases hrid : sd.roomId = ""
      · simp only [disconnectHandler, hsd, if_pos hrid]
        exact h
      · cases hroom : aget st.rooms sd.roomId with
        | none => simp only [disconnectHandler, hsd, if_neg hrid, hroom]; exact h
        | some room =>
            simp only [disconnectHandler, hsd, if_neg hrid, hroom]
            by_cases hemp : (departedRoom room sid).players.isEmpty
            · rw [if_pos hemp]
              intro r hr
              exact h r ((aerase_sublist st.rooms sd.roomId).subset hr)
            · rw [if_neg hemp]
              intro r hr
              rcases mem_aset _ _ _ r hr with rfl | h1
              · show slotsOkL (departedRoom room sid).players
                rw [departedRoom_players]
                exact slotsOkL_sublist (aerase_sublist _ _) (h _ (aget_some_mem _ _ _ hroom))
              · exact h r h1

theorem slotInvariant_reap (st : ServerState) (h : SlotInvariant st) :
    SlotInvariant (reapHandler st).1 := by
  intro r hr
  exact h r (List.mem_of_mem_filter hr)

/-- Preservation of the slot invariant by every server operation. -/
theorem slotInvariant_step (st : ServerState) (e : SEvent) (h : SlotInvariant st) :
    SlotInvariant (step st e).1 := by
  cases e with
  | join sid p => exact slotInvariant_join st sid p h
  | setrom sid rn => exact slotInvariant_setrom st sid rn h
  | disconnect sid => exact slotInvariant_disconnect st sid h
  | reap => exact slotInvariant_reap st h
  | _ => exact h

theorem slotInvariant_init : SlotInvariant initState := by
  intro r hr
  simp [initState] at hr

theorem slotInvariant_run (evs : List SEvent) : SlotInvariant (run evs) := by
  have key : ∀ (l : List SEvent) (st : ServerState), SlotInvariant st →
      SlotInvariant (l.foldl (fun s e => (step s e).1) st) := by
    intro l
    induction l with
    | nil => intro st hst; exact hst
    | cons e rest ih =>
        intro st hst
        exact ih _ (slotInvariant_step st e hst)
  exact key evs initState slotInvariant_init

theorem roomsNonempty_join (st : ServerState) (sid : String) (p : JoinPayload)
    (h : RoomsNonempty st) : RoomsNonempty (roomJoinHandler st sid p).1 := by
  cases hg : aget st.rooms (normalizeRoomId p.roomId) with
  | none =>
      have hgc : getOrCreateRoom st.rooms (normalizeRoomId p.roomId) =
          (st.rooms ++ [(normalizeRoomId p.roomId, emptyRoom)], emptyRoom) := by
        unfold getOrCreateRoom
        rw [hg]
      simp only [roomJoinHandler, hgc, assignSlot_empty]
      intro r hr
      rw [aset_append_fresh _ _ _ _ hg] at hr
      rcases List.mem_append.mp hr with h1 | h1
      · exact h r h1
      · rw [List.mem_singleton.mp h1]
        show (joinUpdatedRoom emptyRoom sid p 1).players ≠ []
        rw [joinUpdatedRoom_players]
        exact aset_ne_nil _ _ _
  | some room =>
      have hgc : getOrCreateRoom st.rooms (normalizeRoomId p.roomId) = (st.rooms, room) := by
        unfold getOrCreateRoom
        rw [hg]
      simp only [roomJoinHandler, hgc]
      cases hga : assignSlot room with
      | none =>
          simp only [hga]
          exact h
      | some slot =>
          simp only [hga]
          intro r hr
          rcases mem_aset _ _ _ r hr with rfl | h1
          · show (joinUpdatedRoom room sid p slot).players ≠ []
            rw [joinUpdatedRoom_players]
            exact aset_ne_nil _ _ _
          · exact h r h1

theorem roomsNonempty_setrom (st : ServerState) (sid : String) (rn : Option String)
    (h : RoomsNonempty st) : RoomsNonempty (setromHandler st sid rn).1 := by
  cases hsd : aget st.socketData sid with
  | none => simp only [setromHandler, hsd]; exact h
  | some sd =>
      cases hroom : aget st.rooms sd.roomId with
      | none => simp only [setromHandler, hsd, hroom]; exact h
      | some room =>
          simp only [setromHandler, hsd, hroom]
          intro r hr
          rcases mem_aset _ _ _ r hr with rfl | h1
          · show room.players ≠ []
            exact h _ (aget_some_mem _ _ _ hroom)
          · exact h r h1

theorem roomsNonempty_disconnect (st : ServerState) (sid : String)
    (h : RoomsNonempty st) : RoomsNonempty (disconnectHandler st sid).1 := by
  cases hsd : aget st.socketData sid with
  | none => simp only [disconnectHandler, hsd]; exact h
  | some sd =>
      by_cases hrid : sd.roomId = ""
      · simp only [disconnectHandler, hsd, if_pos hrid]
        exact h
      · cases hroom : aget st.rooms sd.roomId with
        | none => simp only [disconnectHandler, hsd, if_neg hrid, hroom]; exact h
        | some room =>
            simp only [disconnectHandler, hsd, if_neg hrid, hroom]
            by_cases hemp : (departedRoom room sid).players.isEmpty
            · rw [if_pos hemp]
              intro r hr
              exact h r ((aerase_sublist st.rooms sd.roomId).subset hr)
            · rw [if_neg hemp]
              intro r hr
              rcases mem_aset _ _ _ r hr with rfl | h1
              · show (departedRoom room sid).players ≠ []
                intro hc
                rw [List.isEmpty_iff] at hemp
                exact hemp hc
              · exact h r h1

theorem roomsNonempty_reap (st : ServerState) (h : RoomsNonempty st) :
    RoomsNonempty (reapHandler st).1 := by
  intro r hr
  exact h r (List.mem_of_mem_filter hr)

/-- Preservation of the no-empty-room invariant by every server operation. -/
theorem roomsNonempty_step (st : ServerState) (e : SEvent) (h : RoomsNonempty st) :
    RoomsNonempty (step st e).1 := by
  cases e with
  | join sid p => exact roomsNonempty_join st sid p h
  | setrom sid rn => exact roomsNonempty_setrom st sid rn h
  | disconnect sid => exact roomsNonempty_disconnect st sid h
  | reap => exact roomsNonempty_reap st h
  | _ => exact h

theorem roomsNonempty_init : RoomsNonempty initState := by
  intro r hr
  simp [initState] at hr

theorem roomsNonempty_run (evs : List SEvent) : RoomsNonempty (run evs) := by
  have key : ∀ (l : List SEvent) (st : ServerState), RoomsNonempty st →
      RoomsNonempty (l.foldl (fun s e => (step s e).1) st) := by
    intro l
    induction l with
    | nil => intro st hst; exact hst
    | cons e rest ih =>
        intro st hst
        exact ih _ (roomsNonempty_step st e hst)
  exact key evs initState roomsNonempty_init

/-- On a registry with no empty room, a reaper sweep removes nothing and
broadcasts nothing. -/
theorem reap_noop (st : ServerState) (h : RoomsNonempty st) :
    reapHandler st = (st, []) := by
  unfold reapHandler
  have hstale : st.rooms.filter (fun e => e.2.players.isEmpty) = [] := by
    rw [List.filter_eq_nil_iff]
    intro r hr
    simpa using h r hr
  have hkept : st.rooms.filter (fun e => !e.2.players.isEmpty) = st.rooms := by
    rw [List.filter_eq_self]
    intro r hr
    simpa using h r hr
  rw [hstale, hkept]
  simp

-- ─── Further assignSlot helper ───────────────────────────────────────────────

theorem find?_range'_eq (b : Nat) : ∀ (a : Nat) (p : Nat → Bool) (s : Nat),
    a ≤ s → s < a + b → p s = true → (∀ t, a ≤ t → t < s → p t = false) →
    (List.range' a b).find? p = some s := by
  induction b with
  | zero => intro a p s h1 h2 _ _; omega
  | succ n ih =>
      intro a p s h1 h2 hps hmin
      rw [List.range'_succ]
      rcases Nat.eq_or_lt_of_le h1 with rfl | hlt
      · rw [List.find?_cons_of_pos _ hps]
      · rw [List.find?_cons_of_neg _ (by simp [hmin a le_rfl hlt])]
        exact ih (a + 1) p s hlt (by omega) hps (fun t ht1 ht2 => hmin t (by omega) ht2)

theorem assignSlot_of_min_free (room : Room) (s : Nat)
    (h1 : 1 ≤ s) (h4 : s ≤ 4) (hfree : s ∉ usedSlots room)
    (hmin : ∀ t, 1 ≤ t → t < s → t ∈ usedSlots room) :
    assignSlot room = some s := by
  unfold assignSlot
  apply find?_range'_eq MAX_PLAYERS 1 _ s h1 (by unfold MAX_PLAYERS; omega)
  · simpa using hfree
  · intro t ht1 ht2
    simpa using hmin t ht1 ht2

-- ─── Claim theorems ──────────────────────────────────────────────────────────

/-- C1: at every reachable state, every room in the registry assigns its
live participants pairwise-distinct slots, every slot lies in {1,2,3,4},
and the room holds at most 4 participants; the slot invariant is preserved
by every operation (join, disconnect, reaper sweep and all other
handlers). -/
theorem c1_slots_distinct_bounded :
    (∀ st e, SlotInvariant st → SlotInvariant (step st e).1) ∧
    (∀ evs, ∀ r ∈ (run evs).rooms,
      (r.2.players.map fun e => e.2.slot).Nodup ∧
      (∀ e ∈ r.2.players, e.2.slot ∈ ([1, 2, 3, 4] : List Nat)) ∧
      r.2.players.length ≤ 4) := by
  refine ⟨slotInvariant_step, ?_⟩
  intro evs r hr
  have hok := slotInvariant_run evs r hr
  refine ⟨hok.1, ?_, ?_⟩
  · intro e he
    have h2 := hok.2 e he
    simp only [List.mem_cons, List.not_mem_nil, or_false]
    omega
  · have hsub : (r.2.players.map fun e => e.2.slot) ⊆ ([1, 2, 3, 4] : List Nat) := by
      intro s hs
      rcases List.mem_map.mp hs with ⟨e, he, rfl⟩
      have h2 := hok.2 e he
      simp only [List.mem_cons, List.not_mem_nil, or_false]
      omega
    have hle := (List.subperm_of_subset hok.1 hsub).length_le
    simpa using hle

/-- Witness for C1: the preservation statement applied to the full room
`fullState` and a concrete join event. -/
theorem c1_slots_distinct_bounded_witness :
    SlotInvariant (step fullState (SEvent.join "z" ⟨some "rm", none, none⟩)).1 :=
  c1_slots_distinct_bounded.1 fullState (SEvent.join "z" ⟨some "rm", none, none⟩)
    (by set_option maxRecDepth 100000 in decide)

/-- C2: a join request to a room already holding 4 participants leaves the
whole server state (registry, participants, host, owner, label, tracked
socket data) exactly unchanged and emits only a room-full error to the
requesting connection. -/
theorem c2_join_full_room_unchanged (st : ServerState) (sid : String) (p : JoinPayload)
    (room : Room)
    (hroom : aget st.rooms (normalizeRoomId p.roomId) = some room)
    (hfull : room.players.length = 4)
    (hok : slotsOkL room.players) :
    step st (SEvent.join sid p) =
      (st, [Emit.toConn sid (Event.roomError "Room is full (max 4 players).")]) := by
  have hgc : getOrCreateRoom st.rooms (normalizeRoomId p.roomId) = (st.rooms, room) := by
    unfold getOrCreateRoom
    rw [hroom]
  show roomJoinHandler st sid p = _
  simp only [roomJoinHandler, hgc, full_assignSlot_none room hfull hok]

/-- Witness for C2: a fifth join to the concrete full room is rejected
with no state change. -/
theorem c2_join_full_room_unchanged_witness :
    step fullState (SEvent.join "z" ⟨some "rm", some "Zed", some "controller"⟩) =
      (fullState, [Emit.toConn "z" (Event.roomError "Room is full (max 4 players).")]) :=
  c2_join_full_room_unchanged fullState "z" ⟨some "rm", some "Zed", some "controller"⟩
    fullRoom4
    (by set_option maxRecDepth 100000 in decide)
    (by decide)
    (by decide)

/-- C10: every room present in the registry after any sequence of handlers
holds at least one participant; the property is preserved by every single
operation, and on such a registry a reaper sweep deletes nothing and emits
no directory broadcast. -/
theorem c10_registry_rooms_nonempty :
    (∀ st e, RoomsNonempty st → RoomsNonempty (step st e).1) ∧
    (∀ evs, RoomsNonempty (run evs)) ∧
    (∀ st, RoomsNonempty st → step st SEvent.reap = (st, [])) :=
  ⟨roomsNonempty_step, roomsNonempty_run, fun st h => reap_noop st h⟩

/-- Witness for C10: a reaper sweep over the registry reached by the
concrete three-join trace is a no-op. -/
theorem c10_registry_rooms_nonempty_witness :
    step (run hostViewerControllerTrace) SEvent.reap = (run hostViewerControllerTrace, []) :=
  c10_registry_rooms_nonempty.2.2 (run hostViewerControllerTrace)
    (by set_option maxRecDepth 400000 in decide)

/-- C8 (amended): `assignSlot` scans slots 1..MAX_SLOTS and returns the
lowest slot not in use by any live participant, or the "full" sentinel
when all four are taken; a successful join records the joiner under
exactly that slot, so the next successful join receives the lowest free
slot — which is the freed slot precisely when the freed slot was the
minimum free one (in particular when the room was full before the
departure). -/
theorem c8_lowest_free_slot :
    (∀ room s, assignSlot room = some s →
       1 ≤ s ∧ s ≤ 4 ∧ s ∉ usedSlots room ∧ ∀ t, 1 ≤ t → t < s → t ∈ usedSlots room) ∧
    (∀ room, assignSlot room = none → ∀ t, 1 ≤ t → t ≤ 4 → t ∈ usedSlots room) ∧
    (∀ room s, 1 ≤ s → s ≤ 4 → s ∉ usedSlots room →
       (∀ t, 1 ≤ t → t < s → t ∈ usedSlots room) → assignSlot room = some s) ∧
    (∀ st sid p s,
       assignSlot (getOrCreateRoom st.rooms (normalizeRoomId p.roomId)).2 = some s →
       ∃ room', aget (step st (SEvent.join sid p)).1.rooms (normalizeRoomId p.roomId) =
           some room' ∧
         aget room'.players sid = some (joinPlayer p s) ∧ (joinPlayer p s).slot = s) := by
  refine ⟨?_, assignSlot_none_all_used, assignSlot_of_min_free, ?_⟩
  · intro room s h
    obtain ⟨h1, h4, hf⟩ := assignSlot_mem_free room s h
    exact ⟨h1, h4, hf, assignSlot_min room s h⟩
  · intro st sid p s hga
    refine ⟨joinUpdatedRoom (getOrCreateRoom st.rooms (normalizeRoomId p.roomId)).2 sid p s,
      ?_, ?_, rfl⟩
    · show aget (roomJoinHandler st sid p).1.rooms _ = _
      simp only [roomJoinHandler, hga]
      exact aget_aset_self _ _ _
    · rw [joinUpdatedRoom_players]
      exact aget_aset_self _ _ _

/-- Witness for C8: the amended statement applied to the room reached by
`hostViewerControllerTrace`, where slots 1-3 are taken and slot 4 is the
lowest free slot. -/
theorem c8_lowest_free_slot_witness :
    assignSlot hostViewerControllerRoom = some 4 :=
  c8_lowest_free_slot.2.2.1 hostViewerControllerRoom 4
    (by decide) (by decide) (by decide) (by decide)

/-- C8 counterexample: in `holeTrace` the participant `c` holds slot 3 and
is the most recent departure (freeing slot 3), yet the next successful
join of that room is assigned slot 2 — the freed slot is not the slot
given to the next join whenever a lower slot is also free. -/
theorem c8_counterexample :
    aget (run (holeTrace.take 3)).rooms "r" =
      some { players := [("a", ⟨1, "Player 1", "controller"⟩),
                         ("b", ⟨2, "Player 2", "controller"⟩),
                         ("c", ⟨3, "Player 3", "controller"⟩)],
             host := some "a", emulatorSocket := none, romName := none } ∧
    aget (run holeTrace).rooms "r" =
      some { players := [("a", ⟨1, "Player 1", "controller"⟩)],
             host := some "a", emulatorSocket := none, romName := none } ∧
    aget (run (holeTrace ++ [SEvent.join "d" ⟨some "r", none, none⟩])).rooms "r" =
      some { players := [("a", ⟨1, "Player 1", "controller"⟩),
                         ("d", ⟨2, "Player 2", "controller"⟩)],
             host := some "a", emulatorSocket := none, romName := none } := by
  set_option maxRecDepth 1000000 in decide

/-- C4 (amended): the host reference is set to the joining connection
exactly when the room had zero participants at join time, irrespective of
the joiner's role — in particular a participant with role viewer that
joins an empty (or freshly created) room does become the host — and a join
into a non-empty room leaves the host unchanged. -/
theorem c4_first_joiner_is_host :
    (∀ st sid p, aget st.rooms (normalizeRoomId p.roomId) = none →
       ∃ room', aget (step st (SEvent.join sid p)).1.rooms (normalizeRoomId p.roomId) =
           some room' ∧ room'.host = some sid) ∧
    (∀ st sid p room, aget st.rooms (normalizeRoomId p.roomId) = some room →
       room.players = [] →
       ∃ room', aget (step st (SEvent.join sid p)).1.rooms (normalizeRoomId p.roomId) =
           some room' ∧ room'.host = some sid) ∧
    (∀ st sid p room, aget st.rooms (normalizeRoomId p.roomId) = some room →
       room.players ≠ [] →
       ∃ room', aget (step st (SEvent.join sid p)).1.rooms (normalizeRoomId p.roomId) =
           some room' ∧ room'.host = room.host) := by
  refine ⟨?_, ?_, ?_⟩
  · intro st sid p hg
    have hgc : getOrCreateRoom st.rooms (normalizeRoomId p.roomId) =
        (st.rooms ++ [(normalizeRoomId p.roomId, emptyRoom)], emptyRoom) := by
      unfold getOrCreateRoom
      rw [hg]
    refine ⟨joinUpdatedRoom emptyRoom sid p 1, ?_, ?_⟩
    · show aget (roomJoinHandler st sid p).1.rooms _ = _
      simp only [roomJoinHandler, hgc, assignSlot_empty]
      exact aget_aset_self _ _ _
    · rw [joinUpdatedRoom_host]
      rfl
  · intro st sid p room hg hemp
    have hgc : getOrCreateRoom st.rooms (normalizeRoomId p.roomId) = (st.rooms, room) := by
      unfold getOrCreateRoom
      rw [hg]
    refine ⟨joinUpdatedRoom room sid p 1, ?_, ?_⟩
    · show aget (roomJoinHandler st sid p).1.rooms _ = _
      simp only [roomJoinHandler, hgc, assignSlot_of_empty room hemp]
      exact aget_aset_self _ _ _
    · rw [joinUpdatedRoom_host, hemp]
      rfl
  · intro st sid p room hg hne
    have hgc : getOrCreateRoom st.rooms (normalizeRoomId p.roomId) = (st.rooms, room) := by
      unfold getOrCreateRoom
      rw [hg]
    cases hga : assignSlot room with
    | none =>
        refine ⟨room, ?_, rfl⟩
        show aget (roomJoinHandler st sid p).1.rooms _ = _
        simp only [roomJoinHandler, hgc, hga]
        exact hg
    | some s =>
        refine ⟨joinUpdatedRoom room sid p s, ?_, ?_⟩
        · show aget (roomJoinHandler st sid p).1.rooms _ = _
          simp only [roomJoinHandler, hgc, hga]
          exact aget_aset_self _ _ _
        · rw [joinUpdatedRoom_host, if_neg (by simpa using hne)]

/-- Witness for C4 (amended): a viewer joining a fresh room becomes its
host. -/
theorem c4_first_joiner_is_host_witness :
    ∃ room', aget (step initState (SEvent.join "v1" ⟨some "r", some "Eve", some "viewer"⟩)).1.rooms
        (normalizeRoomId (some "r")) = some room' ∧ room'.host = some "v1" :=
  c4_first_joiner_is_host.1 initState "v1" ⟨some "r", some "Eve", some "viewer"⟩
    (by set_option maxRecDepth 100000 in decide)

/-- C4 counterexample: a participant with role viewer joins an empty room
and is recorded as the room's host, contradicting the claim that the host
is the first non-viewer to join. -/
theorem c4_counterexample :
    aget (run [SEvent.join "v1" ⟨some "r", some "Eve", some "viewer"⟩]).rooms "r" =
      some { players := [("v1", ⟨1, "Eve", "viewer"⟩)], host := some "v1",
             emulatorSocket := none, romName := none } := by
  set_option maxRecDepth 400000 in decide

/-- C5 (amended): a set-label message from ANY connection whose tracked
room exists — owner or not — updates that room's label to the received
string truncated to 80 characters and re-publishes the directory; the
server performs no owner check. -/
theorem c5_label_set_by_any_member (st : ServerState) (sid : String) (sd : SocketData)
    (room : Room) (rn : Option String)
    (hsd : aget st.socketData sid = some sd)
    (hroom : aget st.rooms sd.roomId = some room) :
    (step st (SEvent.setrom sid rn)).1.rooms =
      aset st.rooms sd.roomId { room with romName := some ((jsOrEmpty rn).take 80) } ∧
    aget (step st (SEvent.setrom sid rn)).1.rooms sd.roomId =
      some { room with romName := some ((jsOrEmpty rn).take 80) } ∧
    (step st (SEvent.setrom sid rn)).2 =
      [Emit.broadcast (Event.roomsList (getAllRooms (step st (SEvent.setrom sid rn)).1.rooms))] := by
  simp only [show step st (SEvent.setrom sid rn) = setromHandler st sid rn from rfl,
    setromHandler, hsd, hroom]
  refine ⟨trivial, ?_, trivial⟩
  exact aget_aset_self _ _ _

/-- Witness for C5 (amended): the controller `c2` — which is not the owner
(`emulatorSocket` is `e1`) — successfully sets the label of room `r`. -/
theorem c5_label_set_by_any_member_witness :
    aget (step (run ownerThenControllerTrace) (SEvent.setrom "c2" (some "Hack"))).1.rooms "r" =
      some { ownerControllerRoom with romName := some ((jsOrEmpty (some "Hack")).take 80) } :=
  (c5_label_set_by_any_member (run ownerThenControllerTrace) "c2" ⟨"r", 2, false⟩
    ownerControllerRoom (some "Hack")
    (by set_option maxRecDepth 400000 in decide)
    (by set_option maxRecDepth 400000 in decide)).2.1

/-- C5 counterexample: the connection `c2` is not the room's owner (the
owner connection is `e1`), yet its set-label message changes the room
label from `none` to `"Hack"`, contradicting the claim that a non-owner's
set-label message leaves the label unchanged. -/
theorem c5_counterexample :
    aget (run (ownerThenControllerTrace ++ [SEvent.setrom "c2" (some "Hack")])).rooms "r" =
      some { players := [("e1", ⟨1, "Emu", "emulator"⟩), ("c2", ⟨2, "Con", "controller"⟩)],
             host := some "e1", emulatorSocket := some "e1", romName := some "Hack" } := by
  set_option maxRecDepth 1000000 in decide

/-- C7: when the host departs a room that remains non-empty, the
replacement host is the first remaining participant whose role is not
viewer; only when every remaining participant is a viewer is the host
taken as the first remaining participant (so the new host is never a
viewer while a non-viewer remains), and the room is notified of the new
host. -/
theorem c7_host_reassignment (st : ServerState) (sid : String) (sd : SocketData) (room : Room)
    (hsd : aget st.socketData sid = some sd)
    (hrid : sd.roomId ≠ "")
    (hroom : aget st.rooms sd.roomId = some room)
    (hhost : room.host = some sid)
    (hne : (departedRoom room sid).players ≠ []) :
    ∃ room', aget (step st (SEvent.disconnect sid)).1.rooms sd.roomId = some room' ∧
      room'.players = (departedRoom room sid).players ∧
      room'.host = replacementHost (departedRoom room sid) ∧
      Emit.toRoomAll sd.roomId (Event.newHost (replacementHost (departedRoom room sid)))
        ∈ (step st (SEvent.disconnect sid)).2 ∧
      (∀ e, (departedRoom room sid).players.find? (fun q => q.2.role ≠ "viewer") = some e →
        replacementHost (departedRoom room sid) = some e.1 ∧ e.2.role ≠ "viewer" ∧
        e ∈ (departedRoom room sid).players) ∧
      ((∃ e ∈ (departedRoom room sid).players, e.2.role ≠ "viewer") →
        ∃ e, (departedRoom room sid).players.find? (fun q => q.2.role ≠ "viewer") = some e) ∧
      ((departedRoom room sid).players.find? (fun q => q.2.role ≠ "viewer") = none →
        replacementHost (departedRoom room sid) =
          (departedRoom room sid).players.head?.map Prod.fst) := by
  have hne2 : ¬((departedRoom room sid).players.isEmpty = true) := by
    simpa using hne
  have hhost2 : (departedRoom room sid).host = some sid := by
    rw [departedRoom_host]
    exact hhost
  refine ⟨{ departedRoom room sid with host := replacementHost (departedRoom room sid) },
    ?_, rfl, rfl, ?_, ?_, ?_, ?_⟩
  · show aget (disconnectHandler st sid).1.rooms sd.roomId = _
    simp only [disconnectHandler, hsd, if_neg hrid, hroom, if_neg hne2, if_pos hhost2]
    exact aget_aset_self _ _ _
  · show _ ∈ (disconnectHandler st sid).2
    simp only [disconnectHandler, hsd, if_neg hrid, hroom, if_neg hne2, if_pos hhost2]
    simp
  · intro e hfe
    have h1 := List.find?_some hfe
    have h2 := List.mem_of_find?_eq_some hfe
    refine ⟨?_, by simpa using h1, h2⟩
    simp only [ne_eq, decide_not] at hfe
    simp [replacementHost, hfe]
  · rintro ⟨e, he, hrole⟩
    cases hf : (departedRoom room sid).players.find? (fun q => q.2.role ≠ "viewer") with
    | none =>
        exfalso
        rw [List.find?_eq_none] at hf
        exact hf e he (by simpa using hrole)
    | some e2 => exact ⟨e2, rfl⟩
  · intro hf
    simp only [ne_eq, decide_not] at hf
    simp [replacementHost, hf]

/-- Witness for C7: in the concrete room with host `c1` (controller),
viewer `v` and controller `c2`, the departure of `c1` makes `c2` — the
first remaining non-viewer, not the viewer `v` — the new host, and the
room is notified. -/
theorem c7_host_reassignment_witness :
    ∃ room', aget (step (run hostViewerControllerTrace) (SEvent.disconnect "c1")).1.rooms "r" =
        some room' ∧
      room'.players = (departedRoom hostViewerControllerRoom "c1").players ∧
      room'.host = replacementHost (departedRoom hostViewerControllerRoom "c1") ∧
      Emit.toRoomAll "r"
          (Event.newHost (replacementHost (departedRoom hostViewerControllerRoom "c1")))
        ∈ (step (run hostViewerControllerTrace) (SEvent.disconnect "c1")).2 ∧
      (∀ e, (departedRoom hostViewerControllerRoom "c1").players.find?
            (fun q => q.2.role ≠ "viewer") = some e →
        replacementHost (departedRoom hostViewerControllerRoom "c1") = some e.1 ∧
        e.2.role ≠ "viewer" ∧ e ∈ (departedRoom hostViewerControllerRoom "c1").players) ∧
      ((∃ e ∈ (departedRoom hostViewerControllerRoom "c1").players, e.2.role ≠ "viewer") →
        ∃ e, (departedRoom hostViewerControllerRoom "c1").players.find?
            (fun q => q.2.role ≠ "viewer") = some e) ∧
      ((departedRoom hostViewerControllerRoom "c1").players.find?
          (fun q => q.2.role ≠ "viewer") = none →
        replacementHost (departedRoom hostViewerControllerRoom "c1") =
          (departedRoom hostViewerControllerRoom "c1").players.head?.map Prod.fst) :=
  c7_host_reassignment (run hostViewerControllerTrace) "c1" ⟨"r", 1, false⟩
    hostViewerControllerRoom
    (by set_option maxRecDepth 400000 in decide)
    (by decide)
    (by set_option maxRecDepth 400000 in decide)
    (by decide)
    (by decide)

/-- C3: a control-event is routed to exactly one connection — the one held
by the room's owner (`emulatorSocket`), falling back to `host` when no
owner is designated — and to no other; when no room or slot is resolvable
for the sender, the room is unknown, or the room has neither owner nor
host, the event is dropped silently with no delivery, no error to the
sender, and no state change. -/
theorem c3_input_routed_to_owner_or_host (st : ServerState) (sid : String) (p : JoypadPayload) :
    (step st (SEvent.joypad sid p)).1 = st ∧
    (step st (SEvent.joypad sid p)).2.length ≤ 1 ∧
    (∀ em ∈ (step st (SEvent.joypad sid p)).2, ∃ s room t,
        resolveSlot st sid p = some s ∧
        resolveRoomId st sid p ≠ "" ∧
        aget st.rooms (resolveRoomId st sid p) = some room ∧
        jsOrStrOpt room.emulatorSocket room.host = some t ∧ t ≠ "" ∧
        em = Emit.toConn t (Event.joypadState s (toUint32 p.buttons)
              (p.axes.getD (0, 0)).1 (p.axes.getD (0, 0)).2)) ∧
    (resolveSlot st sid p = none → (step st (SEvent.joypad sid p)).2 = []) ∧
    (resolveRoomId st sid p = "" → (step st (SEvent.joypad sid p)).2 = []) ∧
    (aget st.rooms (resolveRoomId st sid p) = none → (step st (SEvent.joypad sid p)).2 = []) ∧
    (∀ room, aget st.rooms (resolveRoomId st sid p) = some room →
        jsTruthyStr (jsOrStrOpt room.emulatorSocket room.host) = false →
        (step st (SEvent.joypad sid p)).2 = []) := by
  have hstep : step st (SEvent.joypad sid p) = (st, joypadInputHandler st sid p) := rfl
  rw [hstep]
  refine ⟨rfl, ?_, ?_, ?_, ?_, ?_, ?_⟩
  · cases hs : resolveSlot st sid p with
    | none => simp [joypadInputHandler, hs]
    | some s =>
        by_cases hrid : resolveRoomId st sid p = ""
        · simp [joypadInputHandler, hs, hrid]
        · cases hroom : aget st.rooms (resolveRoomId st sid p) with
          | none => simp [joypadInputHandler, hs, hrid, hroom]
          | some room =>
              cases ht : jsOrStrOpt room.emulatorSocket room.host with
              | none => simp [joypadInputHandler, hs, hrid, hroom, ht]
              | some t =>
                  by_cases ht2 : t = "" <;>
                    simp [joypadInputHandler, hs, hrid, hroom, ht, ht2]
  · intro em hem
    cases hs : resolveSlot st sid p with
    | none => simp [joypadInputHandler, hs] at hem
    | some s =>
        by_cases hrid : resolveRoomId st sid p = ""
        · simp [joypadInputHandler, hs, hrid] at hem
        · cases hroom : aget st.rooms (resolveRoomId st sid p) with
          | none => simp [joypadInputHandler, hs, hrid, hroom] at hem
          | some room =>
              cases ht : jsOrStrOpt room.emulatorSocket room.host with
              | none => simp [joypadInputHandler, hs, hrid, hroom, ht] at hem
              | some t =>
                  by_cases ht2 : t = ""
                  · simp [joypadInputHandler, hs, hrid, hroom, ht, ht2] at hem
                  · simp [joypadInputHandler, hs, hrid, hroom, ht, ht2] at hem
                    exact ⟨s, room, t, rfl, hrid, rfl, ht, ht2, hem⟩
  · intro h
    simp [joypadInputHandler, h]
  · intro h
    cases hs : resolveSlot st sid p with
    | none => simp [joypadInputHandler, hs]
    | some s => simp [joypadInputHandler, hs, h]
  · intro h
    cases hs : resolveSlot st sid p with
    | none => simp [joypadInputHandler, hs]
    | some s =>
        by_cases hrid : resolveRoomId st sid p = ""
        · simp [joypadInputHandler, hs, hrid]
        · simp [joypadInputHandler, hs, hrid, h]
  · intro room hroom htf
    cases hs : resolveSlot st sid p with
    | none => simp [joypadInputHandler, hs]
    | some s =>
        by_cases hrid : resolveRoomId st sid p = ""
        · simp [joypadInputHandler, hs, hrid]
        · cases ht : jsOrStrOpt room.emulatorSocket room.host with
          | none => simp [joypadInputHandler, hs, hrid, hroom, ht]
          | some t =>
              rw [ht] at htf
              have ht2 : t = "" := by simpa [jsTruthyStr] using htf
              simp [joypadInputHandler, hs, hrid, hroom, ht, ht2]

/-- Witness for C3: in the concrete owner room, a control-event from the
controller resolves to the owner connection `e1` and to no other. -/
theorem c3_input_routed_to_owner_or_host_witness :
    ∃ s room t,
      resolveSlot (run ownerThenControllerTrace) "c2" ⟨none, none, 5, some (1, 2)⟩ = some s ∧
      resolveRoomId (run ownerThenControllerTrace) "c2" ⟨none, none, 5, some (1, 2)⟩ ≠ "" ∧
      aget (run ownerThenControllerTrace).rooms
        (resolveRoomId (run ownerThenControllerTrace) "c2" ⟨none, none, 5, some (1, 2)⟩) =
        some room ∧
      jsOrStrOpt room.emulatorSocket room.host = some t ∧ t ≠ "" ∧
      Emit.toConn "e1" (Event.joypadState 2 (toUint32 5) 1 2) =
        Emit.toConn t (Event.joypadState s (toUint32 5) 1 2) :=
  (c3_input_routed_to_owner_or_host (run ownerThenControllerTrace) "c2"
      ⟨none, none, 5, some (1, 2)⟩).2.2.1
    (Emit.toConn "e1" (Event.joypadState 2 (toUint32 5) 1 2))
    (by set_option maxRecDepth 1000000 in decide)

/-- C6 (amended): a routed control-event carries the sender's slot, the
buttons value converted to an unsigned 32-bit integer by `>>> 0` — the
identity exactly on values in [0, 2^32), hence on every 16-bit bitmask —
and the axes values exactly as received when an axes object is present
(the default {x:0, y:0} is substituted when it is absent). -/
theorem c6_routed_payload_normalized (st : ServerState) (sid : String) (p : JoypadPayload)
    (s : Int) (room : Room) (t : String)
    (hs : resolveSlot st sid p = some s)
    (hrid : resolveRoomId st sid p ≠ "")
    (hroom : aget st.rooms (resolveRoomId st sid p) = some room)
    (ht : jsOrStrOpt room.emulatorSocket room.host = some t)
    (ht2 : t ≠ "") :
    (step st (SEvent.joypad sid p)).2 =
      [Emit.toConn t (Event.joypadState s (toUint32 p.buttons)
        (p.axes.getD (0, 0)).1 (p.axes.getD (0, 0)).2)] ∧
    (0 ≤ p.buttons → p.buttons < 2 ^ 32 → toUint32 p.buttons = p.buttons) ∧
    (∀ a, p.axes = some a → p.axes.getD (0, 0) = a) := by
  refine ⟨?_, ?_, ?_⟩
  · show joypadInputHandler st sid p = _
    simp [joypadInputHandler, hs, hrid, hroom, ht, ht2]
  · intro h0 hlt
    exact Int.emod_eq_of_lt h0 hlt
  · intro a ha
    rw [ha]
    rfl

/-- Witness for C6 (amended): the in-range bitmask 5 with axes (1,2) is
forwarded to the owner `e1` unchanged. -/
theorem c6_routed_payload_normalized_witness :
    (step (run ownerThenControllerTrace) (SEvent.joypad "c2" ⟨none, none, 5, some (1, 2)⟩)).2 =
      [Emit.toConn "e1" (Event.joypadState 2 (toUint32 5) 1 2)] ∧
    ((0 : Int) ≤ 5 → (5 : Int) < 2 ^ 32 → toUint32 5 = 5) ∧
    (∀ a, (some ((1 : Int), (2 : Int)) : Option (Int × Int)) = some a →
      (some ((1 : Int), (2 : Int)) : Option (Int × Int)).getD (0, 0) = a) :=
  c6_routed_payload_normalized (run ownerThenControllerTrace) "c2"
    ⟨none, none, 5, some (1, 2)⟩ 2 ownerControllerRoom "e1"
    (by set_option maxRecDepth 400000 in decide)
    (by set_option maxRecDepth 400000 in decide)
    (by set_option maxRecDepth 400000 in decide)
    (by decide)
    (by decide)

/-- C6 counterexample: a control-event carrying buttons = -1 is routed
with buttons = 4294967295, not the value received, so the forwarded
payload is not byte-for-byte the received one. -/
theorem c6_counterexample :
    (step (run ownerThenControllerTrace) (SEvent.joypad "c2" ⟨none, none, -1, some (0, 0)⟩)).2 =
      [Emit.toConn "e1" (Event.joypadState 2 4294967295 0 0)] ∧
    (4294967295 : Int) ≠ (-1 : Int) := by
  set_option maxRecDepth 1000000 in decide

theorem connDeliveries_singleton (t : String) (ev : Event) (live : List String) :
    connDeliveries [Emit.toConn t ev] live =
      if live.contains t then [(t, ev)] else [] := rfl

/-- C9: every offer, answer or ICE-candidate message {to, payload} makes
the relay emit exactly one unicast {from := sender, payload} with the
payload unchanged, addressed to the connection named by `to`; it is
delivered to `to` exactly when that connection is live, is never delivered
to any other connection, and an undeliverable message is dropped with
nothing sent back to the sender. -/
theorem c9_signaling_relay (st : ServerState) (sid toId payload : String) :
    step st (SEvent.webrtcOfferMsg sid toId payload) =
      (st, [Emit.toConn toId (Event.webrtcOffer sid payload)]) ∧
    step st (SEvent.webrtcAnswerMsg sid toId payload) =
      (st, [Emit.toConn toId (Event.webrtcAnswer sid payload)]) ∧
    step st (SEvent.webrtcIceMsg sid toId payload) =
      (st, [Emit.toConn toId (Event.webrtcIce sid payload)]) ∧
    (∀ live : List String, live.contains toId = false →
      connDeliveries (step st (SEvent.webrtcOfferMsg sid toId payload)).2 live = []) ∧
    (∀ live : List String, live.contains toId = true →
      connDeliveries (step st (SEvent.webrtcOfferMsg sid toId payload)).2 live =
        [(toId, Event.webrtcOffer sid payload)]) ∧
    (∀ (live : List String) (d : String × Event),
      d ∈ connDeliveries (step st (SEvent.webrtcOfferMsg sid toId payload)).2 live →
      d.1 = toId ∧ d.2 = Event.webrtcOffer sid payload) := by
  refine ⟨rfl, rfl, rfl, ?_, ?_, ?_⟩
  · intro live h
    rw [show (step st (SEvent.webrtcOfferMsg sid toId payload)).2 =
      [Emit.toConn toId (Event.webrtcOffer sid payload)] from rfl,
      connDeliveries_singleton, if_neg (by simpa using h)]
  · intro live h
    rw [show (step st (SEvent.webrtcOfferMsg sid toId payload)).2 =
      [Emit.toConn toId (Event.webrtcOffer sid payload)] from rfl,
      connDeliveries_singleton, if_pos h]
  · intro live d hd
    rw [show (step st (SEvent.webrtcOfferMsg sid toId payload)).2 =
      [Emit.toConn toId (Event.webrtcOffer sid payload)] from rfl,
      connDeliveries_singleton] at hd
    by_cases hc : live.contains toId = true
    · rw [if_pos hc] at hd
      rw [List.mem_singleton.mp hd]
      exact ⟨rfl, rfl⟩
    · rw [if_neg hc] at hd
      simp at hd

/-- Witness for C9: a relayed offer addressed to `bob` is dropped when
`bob` is not live. -/
theorem c9_signaling_relay_witness :
    connDeliveries (step initState (SEvent.webrtcOfferMsg "alice" "bob" "sdp-offer")).2
      ["zoe"] = [] :=
  (c9_signaling_relay initState "alice" "bob" "sdp-offer").2.2.2.1 ["zoe"] (by decide)
